import Mathlib

/-!
Shallow embedding of the SociaLens ingestion pipeline
(`backend/routes/upload.py` and `backend/workers/tasks.py`).

Python values that flow through the pipeline are modelled by the
inductive `Val`; dictionaries are ordered association lists (insertion
order preserved, keys unique in every record produced by `json.loads`
or `csv.DictReader`).  Exceptions are modelled by `Except PyErr`;
functions of the source that catch exceptions fold the catch into
their return type.
-/

namespace SociaLens

/-- A Python dict key as it occurs in this pipeline: a string key, or
the `None` key that `csv.DictReader` uses as its `restkey`. -/
inductive PyKey where
  | kStr (s : String)
  | kNone
  deriving DecidableEq, Repr

/-- A Python value of the shapes that reach the ingestion pipeline
(JSON scalars, strings, lists and dicts; JSON numbers are modelled as
integers). -/
inductive Val where
  | vNone
  | vBool (b : Bool)
  | vInt (n : Int)
  | vStr (s : String)
  | vList (xs : List Val)
  | vDict (kvs : List (PyKey × Val))
  deriving Repr

mutual

def valBEq : Val → Val → Bool
  | .vNone, .vNone => true
  | .vBool a, .vBool b => a == b
  | .vInt a, .vInt b => a == b
  | .vStr a, .vStr b => a == b
  | .vList xs, .vList ys => valListBEq xs ys
  | .vDict xs, .vDict ys => valDictBEq xs ys
  | _, _ => false

def valListBEq : List Val → List Val → Bool
  | [], [] => true
  | x :: xs, y :: ys => valBEq x y && valListBEq xs ys
  | _, _ => false

def valDictBEq : List (PyKey × Val) → List (PyKey × Val) → Bool
  | [], [] => true
  | (k, v) :: xs, (l, w) :: ys => k == l && valBEq v w && valDictBEq xs ys
  | _, _ => false

end

mutual

theorem valBEq_iff : ∀ a b : Val, valBEq a b = true ↔ a = b
  | .vNone, b => by cases b <;> simp [valBEq]
  | .vBool a, b => by cases b <;> simp [valBEq]
  | .vInt a, b => by cases b <;> simp [valBEq]
  | .vStr a, b => by cases b <;> simp [valBEq]
  | .vList xs, b => by
      cases b <;> simp [valBEq]
      exact valListBEq_iff xs _
  | .vDict xs, b => by
      cases b <;> simp [valBEq]
      exact valDictBEq_iff xs _

theorem valListBEq_iff : ∀ xs ys : List Val, valListBEq xs ys = true ↔ xs = ys
  | [], ys => by cases ys <;> simp [valListBEq]
  | x :: xs, ys => by
      cases ys with
      | nil => simp [valListBEq]
      | cons y ys =>
          simp only [valListBEq, Bool.and_eq_true, List.cons.injEq]
          exact and_congr (valBEq_iff x y) (valListBEq_iff xs ys)

theorem valDictBEq_iff : ∀ xs ys : List (PyKey × Val), valDictBEq xs ys = true ↔ xs = ys
  | [], ys => by cases ys <;> simp [valDictBEq]
  | (k, v) :: xs, ys => by
      cases ys with
      | nil => simp [valDictBEq]
      | cons p ys =>
          obtain ⟨l, w⟩ := p
          simp only [valDictBEq, Bool.and_eq_true, List.cons.injEq, Prod.mk.injEq,
            beq_iff_eq]
          rw [valBEq_iff v w, valDictBEq_iff xs ys, and_assoc]

end

instance : DecidableEq Val := fun a b =>
  decidable_of_iff (valBEq a b = true) (valBEq_iff a b)

/-- A RawRecord: one loosely-typed entry produced by a format parser
(a Python dict). -/
abbrev RawRecord := List (PyKey × Val)

/-- Python truthiness of a `Val` (`bool(v)`). -/
def truthy : Val → Bool
  | .vNone => false
  | .vBool b => b
  | .vInt n => n != 0
  | .vStr s => s ≠ ""
  | .vList xs => xs ≠ []
  | .vDict kvs => kvs ≠ []

/-- `d.get(k)`: first binding of string key `k`, if any. -/
def pyGet (r : RawRecord) (k : String) : Option Val :=
  (r.find? (fun kv => kv.1 == PyKey.kStr k)).map (·.2)

/-- `d.get(k, default)`. -/
def pyGetD (r : RawRecord) (k : String) (d : Val) : Val :=
  (pyGet r k).getD d

/-- `k in d` membership test for a string key. -/
def hasKey (r : RawRecord) (k : String) : Bool :=
  (pyGet r k).isSome

/-- `a or b` on Python values: `a` if truthy, else `b`. -/
def orVal (a b : Val) : Val :=
  if truthy a then a else b

mutual

/-- `str(v)` rendering of a value (best-effort model of Python's
`str`; containers render their elements with `repr`, which quotes
strings). -/
def pyStr : Val → String
  | .vNone => "None"
  | .vBool true => "True"
  | .vBool false => "False"
  | .vInt n => toString n
  | .vStr s => s
  | .vList xs => "[" ++ String.intercalate ", " (pyReprList xs) ++ "]"
  | .vDict kvs => "\x7b" ++ String.intercalate ", " (pyReprDict kvs) ++ "\x7d"

def pyReprList : List Val → List String
  | [] => []
  | .vStr s :: xs => ("'" ++ s ++ "'") :: pyReprList xs
  | x :: xs => pyStr x :: pyReprList xs

def pyReprDict : List (PyKey × Val) → List String
  | [] => []
  | (.kStr k, .vStr s) :: kvs => ("'" ++ k ++ "': '" ++ s ++ "'") :: pyReprDict kvs
  | (.kStr k, v) :: kvs => ("'" ++ k ++ "': " ++ pyStr v) :: pyReprDict kvs
  | (.kNone, .vStr s) :: kvs => ("None: '" ++ s ++ "'") :: pyReprDict kvs
  | (.kNone, v) :: kvs => ("None: " ++ pyStr v) :: pyReprDict kvs

end

/-- The exceptions this pipeline can raise. -/
inductive PyErr where
  | valueError (msg : String)
  | typeError (msg : String)
  | attributeError (msg : String)
  | unicodeDecodeError (msg : String)
  | csvError (msg : String)
  deriving DecidableEq, Repr

/-- A `datetime.datetime` value. -/
structure DateTime where
  year : Nat
  month : Nat
  day : Nat
  hour : Nat
  minute : Nat
  second : Nat
  microsecond : Nat
  deriving DecidableEq, Repr

/-- Python whitespace, as stripped by `str.strip()` and matched by
`\s` in Unicode (str) patterns: the ASCII run `\t`–`\r` and space, the
file/group/record/unit separators `\x1c`–`\x1f`, NEL `\x85`, NBSP
`\xa0`, and the Unicode space separators. -/
def isSpaceChar (c : Char) : Bool :=
  c = ' ' ∨ ('\t' ≤ c ∧ c ≤ '\r') ∨ ('\x1c' ≤ c ∧ c ≤ '\x1f') ∨ c = '\x85' ∨ c = '\xa0' ∨
  c = '\u1680' ∨ ('\u2000' ≤ c ∧ c ≤ '\u200a') ∨ c = '\u2028' ∨ c = '\u2029' ∨
  c = '\u202f' ∨ c = '\u205f' ∨ c = '\u3000'

/-- `str.strip()` on a char list. -/
def stripChars (cs : List Char) : List Char :=
  ((cs.dropWhile isSpaceChar).reverse.dropWhile isSpaceChar).reverse

/-- `str.strip()`. -/
def pyStripStr (s : String) : String :=
  (stripChars s.data).asString

/-- `str.lower()` (ASCII model). -/
def pyLower (s : String) : String :=
  (s.data.map Char.toLower).asString

/-! ### `datetime.strptime`, for the four formats of `parse_timestamp`

CPython's `_strptime` compiles each directive to a regex alternation
(`%Y` = four digits, `%m` = `1[0-2]|0[1-9]|[1-9]`, `%d` =
`3[01]|[12]\d|0[1-9]|[1-9]| [1-9]`, `%H` = `2[0-3]|[0-1]\d|\d`,
`%M` = `[0-5]\d|\d`, `%S` = `6[0-1]|[0-5]\d|\d`, `%f` = `[0-9]{1,6}`),
literal characters are matched case-insensitively, whitespace in the
format matches a run of whitespace, the whole string must be consumed,
and the subsequent `datetime` construction re-checks the day against
the month length and the second against 0–59, raising `ValueError` on
any mismatch.  The matcher below reproduces the ordered-alternation
backtracking of that regex. -/

/-- One token of a compiled strptime format. -/
inductive FTok where
  | year | month | day | hourTok | minuteTok | secondTok | frac
  | lit (c : Char)
  | wsRun
  deriving DecidableEq, Repr

/-- Fields collected while matching (strptime defaults: 1900-01-01 00:00:00.0). -/
structure TimeParts where
  y : Nat := 1900
  mo : Nat := 1
  d : Nat := 1
  hh : Nat := 0
  mi : Nat := 0
  ss : Nat := 0
  us : Nat := 0
  deriving DecidableEq, Repr

def isDigitChar (c : Char) : Bool := '0' ≤ c ∧ c ≤ '9'

def digitVal (c : Char) : Nat := c.toNat - '0'.toNat

/-- Greedy run of whitespace split into (run prefixes, rest) candidates,
longest first, each consuming at least one char. -/
def wsCands : List Char → List (List Char)
  | [] => []
  | c :: cs =>
      if isSpaceChar c then (wsCands cs) ++ [cs] else []

/-- Candidate parses (field update, remaining input) for one token. -/
abbrev Cands := List ((TimeParts → TimeParts) × List Char)

/-- Candidate `(value, rest)` parses for one numeric/literal token, in
the priority order of the corresponding regex alternation. -/
def tokCands : FTok → List Char → Cands
  | .year, a :: b :: c :: d :: rest =>
      if isDigitChar a ∧ isDigitChar b ∧ isDigitChar c ∧ isDigitChar d then
        [(fun tp => { tp with y := digitVal a * 1000 + digitVal b * 100 + digitVal c * 10 + digitVal d }, rest)]
      else []
  | .year, _ => []
  | .month, a :: b :: rest =>
      ((if a = '1' ∧ '0' ≤ b ∧ b ≤ '2' then
        [(fun tp => { tp with mo := 10 + digitVal b }, rest)]
      else if a = '0' ∧ '1' ≤ b ∧ b ≤ '9' then
        [(fun tp => { tp with mo := digitVal b }, rest)]
      else []) : Cands) ++
      ((if '1' ≤ a ∧ a ≤ '9' then [(fun tp => { tp with mo := digitVal a }, b :: rest)] else []) : Cands)
  | .month, [a] =>
      if '1' ≤ a ∧ a ≤ '9' then [(fun tp => { tp with mo := digitVal a }, [])] else []
  | .month, [] => []
  | .day, a :: b :: rest =>
      ((if a = '3' ∧ (b = '0' ∨ b = '1') then
        [(fun tp => { tp with d := 30 + digitVal b }, rest)]
      else if (a = '1' ∨ a = '2') ∧ isDigitChar b then
        [(fun tp => { tp with d := digitVal a * 10 + digitVal b }, rest)]
      else if a = '0' ∧ '1' ≤ b ∧ b ≤ '9' then
        [(fun tp => { tp with d := digitVal b }, rest)]
      else []) : Cands) ++
      ((if '1' ≤ a ∧ a ≤ '9' then [(fun tp => { tp with d := digitVal a }, b :: rest)] else []) : Cands) ++
      ((if a = ' ' ∧ '1' ≤ b ∧ b ≤ '9' then [(fun tp => { tp with d := digitVal b }, rest)] else []) : Cands)
  | .day, [a] =>
      if '1' ≤ a ∧ a ≤ '9' then [(fun tp => { tp with d := digitVal a }, [])] else []
  | .day, [] => []
  | .hourTok, a :: b :: rest =>
      ((if a = '2' ∧ '0' ≤ b ∧ b ≤ '3' then
        [(fun tp => { tp with hh := 20 + digitVal b }, rest)]
      else if (a = '0' ∨ a = '1') ∧ isDigitChar b then
        [(fun tp => { tp with hh := digitVal a * 10 + digitVal b }, rest)]
      else []) : Cands) ++
      ((if isDigitChar a then [(fun tp => { tp with hh := digitVal a }, b :: rest)] else []) : Cands)
  | .hourTok, [a] =>
      if isDigitChar a then [(fun tp => { tp with hh := digitVal a }, [])] else []
  | .hourTok, [] => []
  | .minuteTok, a :: b :: rest =>
      ((if '0' ≤ a ∧ a ≤ '5' ∧ isDigitChar b then
        [(fun tp => { tp with mi := digitVal a * 10 + digitVal b }, rest)]
      else []) : Cands) ++
      ((if isDigitChar a then [(fun tp => { tp with mi := digitVal a }, b :: rest)] else []) : Cands)
  | .minuteTok, [a] =>
      if isDigitChar a then [(fun tp => { tp with mi := digitVal a }, [])] else []
  | .minuteTok, [] => []
  | .secondTok, a :: b :: rest =>
      ((if a = '6' ∧ (b = '0' ∨ b = '1') then
        [(fun tp => { tp with ss := 60 + digitVal b }, rest)]
      else if '0' ≤ a ∧ a ≤ '5' ∧ isDigitChar b then
        [(fun tp => { tp with ss := digitVal a * 10 + digitVal b }, rest)]
      else []) : Cands) ++
      ((if isDigitChar a then [(fun tp => { tp with ss := digitVal a }, b :: rest)] else []) : Cands)
  | .secondTok, [a] =>
      if isDigitChar a then [(fun tp => { tp with ss := digitVal a }, [])] else []
  | .secondTok, [] => []
  | .frac, cs =>
      fracCands cs 6
  | .lit c, a :: rest =>
      if a.toLower = c.toLower then [(id, rest)] else []
  | .lit _, [] => []
  | .wsRun, cs =>
      (wsCands cs).map (fun rest => (id, rest))
where
  /-- `[0-9]{1,6}` greedy: candidates from longest to shortest;
  the collected digits are right-padded with zeros to microseconds. -/
  fracCands (cs : List Char) (maxLen : Nat) : List ((TimeParts → TimeParts) × List Char) :=
    match maxLen with
    | 0 => []
    | n + 1 =>
        match cs with
        | [] => []
        | a :: rest =>
            if isDigitChar a then
              ((fracCands rest n).map
                (fun (upd, r) => (fun tp => upd { tp with us := tp.us * 10 + digitVal a }, r))) ++
              [(fun tp => padFrac { tp with us := tp.us * 10 + digitVal a } n, rest)]
            else []
  padFrac (tp : TimeParts) (missing : Nat) : TimeParts :=
    { tp with us := tp.us * 10 ^ missing }

/-- Backtracking matcher over a token list; the whole input must be
consumed (strptime's "unconverted data remains" check). -/
def matchToks : List FTok → List Char → TimeParts → Option TimeParts
  | [], cs, tp => if cs = [] then some tp else none
  | t :: rest, cs, tp =>
      (tokCands t cs).findSome? (fun (upd, cs2) => matchToks rest cs2 (upd tp))

/-- The four formats of `parse_timestamp`, compiled. -/
def fmtIsoZ : List FTok :=
  [.year, .lit '-', .month, .lit '-', .day, .lit 'T', .hourTok, .lit ':', .minuteTok,
   .lit ':', .secondTok, .lit 'Z']

def fmtIsoFracZ : List FTok :=
  [.year, .lit '-', .month, .lit '-', .day, .lit 'T', .hourTok, .lit ':', .minuteTok,
   .lit ':', .secondTok, .lit '.', .frac, .lit 'Z']

def fmtSpace : List FTok :=
  [.year, .lit '-', .month, .lit '-', .day, .wsRun, .hourTok, .lit ':', .minuteTok,
   .lit ':', .secondTok]

def fmtDate : List FTok :=
  [.year, .lit '-', .month, .lit '-', .day]

def strptimeFormats : List (List FTok) := [fmtIsoZ, fmtIsoFracZ, fmtSpace, fmtDate]

/-- Leap-year rule of the Gregorian calendar, as `calendar.isleap`. -/
def isLeap (y : Nat) : Bool :=
  y % 4 = 0 ∧ (y % 100 ≠ 0 ∨ y % 400 = 0)

def daysInMonth (y m : Nat) : Nat :=
  if m = 2 then (if isLeap y then 29 else 28)
  else if m = 4 ∨ m = 6 ∨ m = 9 ∨ m = 11 then 30
  else 31

/-- `datetime.strptime(s, fmt)` for one of the four formats: regex
match, then `datetime(...)` construction which re-validates the year
(≥ 1), the day against the month length, and the second (≤ 59).
All failures are `ValueError`s. -/
def strptime (fmt : List FTok) (s : String) : Except PyErr DateTime :=
  match matchToks fmt s.data {} with
  | none => .error (.valueError "time data does not match format")
  | some tp =>
      if tp.y = 0 then .error (.valueError "year 0 is out of range")
      else if tp.d > daysInMonth tp.y tp.mo then
        .error (.valueError "day is out of range for month")
      else if tp.ss > 59 then .error (.valueError "second must be in 0..59")
      else .ok ⟨tp.y, tp.mo, tp.d, tp.hh, tp.mi, tp.ss, tp.us⟩

/-- The `for fmt in formats: try ... except ValueError: continue` loop
of `parse_timestamp`; a non-`ValueError` exception would propagate. -/
def tryFormats (now : DateTime) (s : String) : List (List FTok) → Except PyErr DateTime
  | [] => .ok now
  | fmt :: rest =>
      match strptime fmt s with
      | .ok d => .ok d
      | .error (.valueError _) => tryFormats now s rest
      | .error e => .error e

/-- `parse_timestamp(timestamp_str)` over an arbitrary Python value,
with `datetime.utcnow()` passed in as `now`.  A falsy argument returns
`now`; a truthy non-string reaches `datetime.strptime`, which raises
`TypeError` (not caught by the `except ValueError`). -/
def parse_timestamp (now : DateTime) (v : Val) : Except PyErr DateTime :=
  if truthy v = false then .ok now
  else
    match v with
    | .vStr s => tryFormats now s strptimeFormats
    | _ => .error (.typeError "strptime() argument 1 must be str")

/-- One entry of the normalized `media` list (`type`, `url`,
`filename`, each an arbitrary Python value copied from the source). -/
structure MediaItem where
  type : Val
  url : Val
  filename : Val
  deriving DecidableEq, Repr

/-- One iteration of the list branch of `parse_media`: a dict maps to
a normalized item, a bare string to an image item, anything else is
skipped. -/
def mediaOfItem : Val → Option MediaItem
  | .vDict r =>
      some ⟨pyGetD r "type" (.vStr "image"),
            pyGetD r "url" (pyGetD r "src" (.vStr "")),
            pyGetD r "filename" (.vStr "")⟩
  | .vStr s => some ⟨.vStr "image", .vStr s, .vStr ""⟩
  | _ => none

/-- `parse_media(media_data)`: every operation of the source body
(`isinstance`, `dict.get` with default, `append`) is non-raising, so
the embedding is a total function. -/
def parse_media (media_data : Val) : List MediaItem :=
  if truthy media_data = false then []
  else
    match media_data with
    | .vList items => items.filterMap mediaOfItem
    | .vStr s => [⟨.vStr "image", .vStr s, .vStr ""⟩]
    | _ => []

/-- `" | ".join(parts)`: `TypeError` as soon as an element is not a
string. -/
def pyJoin (sep : String) (parts : List Val) : Except PyErr String :=
  if parts.all (fun v => match v with | .vStr _ => true | _ => false) then
    .ok (String.intercalate sep (parts.map pyStr))
  else
    .error (.typeError "sequence item: expected str instance")

/-- The canonical post `normalize_post_data` builds (the `normalized`
dict of the source; at acceptance `raw_text` is known to be a string). -/
structure NormalizedPost where
  platform : Val
  post_id : String
  raw_text : String
  timestamp : DateTime
  user_id : String
  media : List MediaItem
  metadata : RawRecord
  deriving DecidableEq, Repr

/-- The keys excluded from `metadata` by the dict comprehension of
`normalize_post_data`. -/
def consumedKeys : List String :=
  ["platform", "id", "post_id", "text", "content", "message", "timestamp",
   "created_at", "date", "user_id", "author", "username", "media", "images",
   "videos", "raw_text"]

/-- The `summary_parts` list: the truthy values of `title`,
`description`, `caption`, in that order. -/
def summaryParts (post : RawRecord) : List Val :=
  ([pyGetD post "title" .vNone, pyGetD post "description" .vNone,
    pyGetD post "caption" .vNone]).filter truthy

/-- The `metadata` dict comprehension of `normalize_post_data`. -/
def metadataOf (post : RawRecord) : RawRecord :=
  post.filter (fun kv =>
    match kv.1 with
    | .kStr s => ¬ s ∈ consumedKeys
    | .kNone => true)

/-- The id fallback chain `post.get("post_id") or post.get("id") or
str(uuid.uuid4())`. -/
def idChain (genId : String) (post : RawRecord) : Val :=
  orVal (pyGetD post "post_id" .vNone)
    (orVal (pyGetD post "id" .vNone) (.vStr genId))

/-- The text fallback chain `post.get("raw_text") or post.get("text")
or post.get("content") or post.get("message") or ""`. -/
def rawTextChain (post : RawRecord) : Val :=
  orVal (pyGetD post "raw_text" .vNone)
    (orVal (pyGetD post "text" .vNone)
      (orVal (pyGetD post "content" .vNone)
        (orVal (pyGetD post "message" .vNone) (.vStr ""))))

/-- `post.get("timestamp", post.get("created_at", post.get("date", "")))`. -/
def tsChain (post : RawRecord) : Val :=
  pyGetD post "timestamp" (pyGetD post "created_at" (pyGetD post "date" (.vStr "")))

/-- `post.get("user_id", post.get("author", post.get("username", "")))`. -/
def userChain (post : RawRecord) : Val :=
  pyGetD post "user_id" (pyGetD post "author" (pyGetD post "username" (.vStr "")))

/-- `post.get("media", post.get("images", post.get("videos", [])))`. -/
def mediaChain (post : RawRecord) : Val :=
  pyGetD post "media" (pyGetD post "images" (pyGetD post "videos" (.vList [])))

/-- The synthesized fallback text
`f"Post from {post.get('platform', 'unknown')} platform"`. -/
def synthText (post : RawRecord) : String :=
  "Post from " ++ pyStr (pyGetD post "platform" (.vStr "unknown")) ++ " platform"

/-- The `raw_text` resolution of `normalize_post_data`: the candidate
chain if truthy, then the title/description/caption synthesis (whose
`join` raises on non-string parts), then the platform fallback text. -/
def rawTextStep (post : RawRecord) : Except PyErr Val :=
  if truthy (rawTextChain post) then pure (rawTextChain post)
  else
    match summaryParts post with
    | [] => pure (Val.vStr (synthText post))
    | parts => do
        let j ← pyJoin " | " parts
        pure (Val.vStr j)

/-- The tail of `normalize_post_data`: build the `normalized` dict and
apply the strip-based rejection check (`AttributeError` when the
resolved text is not a string). -/
def finishPost (genId : String) (post : RawRecord) (raw_textV : Val) (ts : DateTime) :
    Except PyErr (Option NormalizedPost) :=
  match raw_textV with
  | .vStr s =>
      if pyStripStr s = "" then pure none
      else pure (some ⟨pyGetD post "platform" (.vStr "unknown"),
        pyStr (idChain genId post), s, ts, pyStr (userChain post),
        parse_media (mediaChain post), metadataOf post⟩)
  | _ => .error (.attributeError "object has no attribute strip")

/-- Body of `normalize_post_data` before its catch-all `except`:
`.ok none` is the explicit rejection (`return None` after the strip
check), `.error` a raised exception.  `genId` stands for the
`str(uuid.uuid4())` drawn in the id fallback. -/
def normalizeExc (now : DateTime) (genId : String) (post : RawRecord) :
    Except PyErr (Option NormalizedPost) := do
  let raw_textV ← rawTextStep post
  let ts ← parse_timestamp now (tsChain post)
  finishPost genId post raw_textV ts

/-- `normalize_post_data(post)`: the catch-all `except Exception`
turns any raised exception into `None`. -/
def normalize_post_data (now : DateTime) (genId : String) (post : RawRecord) :
    Option NormalizedPost :=
  match normalizeExc now genId post with
  | .ok r => r
  | .error _ => none

/-! ### `parse_json_file` -/

/-- `enumerate(posts)`'s demand that `posts` be iterable: lists yield
their elements, strings their characters, dicts their keys; any other
value raises `TypeError` (as does the preceding `len(posts)`). -/
def pyIterate : Val → Except PyErr (List Val)
  | .vList xs => .ok xs
  | .vStr s => .ok (s.data.map (fun c => .vStr (String.singleton c)))
  | .vDict kvs => .ok (kvs.map (fun kv =>
      match kv.1 with
      | .kStr s => Val.vStr s
      | .kNone => Val.vNone))
  | _ => .error (.typeError "object is not iterable")

/-- One iteration of the normalization loop of `parse_json_file`.
The debug print evaluates `post.get('raw_text', 'no_text')[:50]`:
a non-dict `post` raises `AttributeError` at `.get`, and a present
`raw_text` that is neither a string nor a list raises `TypeError` at
the slice — both abort the whole file. -/
def processPost (now : DateTime) (genId : String) (post : Val) :
    Except PyErr (Option NormalizedPost) :=
  match post with
  | .vDict r =>
      match pyGetD r "raw_text" (.vStr "no_text") with
      | .vStr _ => .ok (normalize_post_data now genId r)
      | .vList _ => .ok (normalize_post_data now genId r)
      | _ => .error (.typeError "object is not subscriptable")
  | _ => .error (.attributeError "object has no attribute get")

/-- The `for i, post in enumerate(posts)` loop collecting accepted
normalized posts; `gen i` models the `str(uuid.uuid4())` available to
the `i`-th record. -/
def normLoop (now : DateTime) (gen : Nat → String) (i : Nat) :
    List Val → Except PyErr (List NormalizedPost)
  | [] => .ok []
  | p :: ps => do
      let r ← processPost now (gen i) p
      let rest ← normLoop now gen (i + 1) ps
      match r with
      | some np => pure (np :: rest)
      | none => pure rest

/-- `parse_json_file` applied to the value produced by `json.loads`:
a top-level list is the post sequence itself, a dict must contain a
`posts` key, anything else raises `ValueError("Invalid JSON
structure")`; the chosen value is then iterated and normalized. -/
def parse_json_file (now : DateTime) (gen : Nat → String) (data : Val) :
    Except PyErr (List NormalizedPost) := do
  let postsV ←
    match data with
    | .vList _ => pure data
    | .vDict r =>
        if hasKey r "posts" then pure ((pyGet r "posts").getD .vNone)
        else Except.error (.valueError "Invalid JSON structure")
    | _ => Except.error (.valueError "Invalid JSON structure")
  let posts ← pyIterate postsV
  normLoop now gen 0 posts

/-! ### `parse_csv_file` (model of `csv.DictReader` over pre-split lines) -/

/-- The tail of `os.path.splitext(p)` (posix): the extension starting
at the last dot of the basename, provided some earlier character of
the basename is not a dot. -/
def splitextExt (p : String) : String :=
  let baseRev := p.data.reverse.takeWhile (· ≠ '/')
  let extRev := baseRev.takeWhile (· ≠ '.')
  if extRev.length = baseRev.length then ""
  else
    let before := baseRev.drop (extRev.length + 1)
    if before.any (· ≠ '.') then ('.' :: extRev.reverse).asString
    else ""

/-- `os.path.join(dir, name)` (posix, for the two-argument use here). -/
def pyPathJoin (dir name : String) : String :=
  if name.startsWith "/" then name else dir ++ "/" ++ name

/-- The observable side effects of `upload_file`, in program order. -/
inductive Effect where
  | makedirs (dir : String)
  | saveFile (path : String)
  | dbInsertUpload (file_id filename : String) (total_posts : Nat)
  | dbInsertPosts (posts : List NormalizedPost)
  | addTask (file_id : String) (posts : List NormalizedPost)
  deriving DecidableEq, Repr

structure UploadResponse where
  message : String
  file_id : String
  total_posts : Nat
  processing_status : String
  deriving DecidableEq, Repr

inductive UploadOutcome where
  | httpError (status : Nat) (detail : String)
  | success (resp : UploadResponse)
  deriving DecidableEq, Repr

def errText : PyErr → String
  | .valueError m => m
  | .typeError m => m
  | .attributeError m => m
  | .unicodeDecodeError m => m
  | .csvError m => m

/-- `upload_file(file)`: `filename` is the client-supplied name,
`parsed` the outcome of dispatching the matching format parser on the
saved bytes, `fid` the generated `uuid4` file id.  Returns the HTTP
outcome together with the side effects performed. -/
def upload_file (filename : String) (parsed : Except PyErr (List NormalizedPost))
    (fid : String) : UploadOutcome × List Effect :=
  if filename = "" then (.httpError 400 "No filename provided", [])
  else
    let ext := pyLower (splitextExt filename)
    if ¬ (ext = ".json" ∨ ext = ".csv" ∨ ext = ".zip") then
      (.httpError 400 "Unsupported file type", [])
    else
      let dir := "uploads/" ++ fid
      let path := pyPathJoin dir filename
      let eff0 := [Effect.makedirs dir, Effect.saveFile path]
      match parsed with
      | .error e => (.httpError 400 ("Error parsing file: " ++ errText e), eff0)
      | .ok posts =>
          (.success ⟨"File uploaded successfully", fid, posts.length, "processing"⟩,
           eff0 ++ [Effect.dbInsertUpload fid filename posts.length] ++
             (if posts.isEmpty then [] else [Effect.dbInsertPosts posts]) ++
             [Effect.addTask fid posts])

/-! ### `process_text_simple` (`backend/workers/tasks.py`)

The four `re.sub` calls are modelled as left-to-right scanners with
the greedy semantics of the corresponding patterns. -/

/-- `\w` (ASCII model). -/
def isWordChar (c : Char) : Bool := c.isAlpha ∨ c.isDigit ∨ c = '_'

/-- The `\S+` tail of the URL pattern: at least one non-whitespace
character, consumed greedily. -/
def urlBody (r : List Char) : Option (List Char) :=
  if r.takeWhile (fun c => ¬ isSpaceChar c) = [] then none
  else some (r.drop (r.takeWhile (fun c => ¬ isSpaceChar c)).length)

/-- Try to match `http[s]?://\S+` at the head of the input; on success
return the remaining input.  The two scheme shapes are disjoint, so
the ordered patterns reproduce the regex's `[s]?` backtracking. -/
def urlMatchAt (cs : List Char) : Option (List Char) :=
  match cs with
  | 'h' :: 't' :: 't' :: 'p' :: rest =>
      match rest with
      | 's' :: ':' :: '/' :: '/' :: r => urlBody r
      | ':' :: '/' :: '/' :: r => urlBody r
      | _ => none
  | _ => none

theorem urlBody_length_lt {r rest : List Char} (h : urlBody r = some rest) :
    rest.length < r.length := by
  unfold urlBody at h
  split at h
  · simp at h
  · rename_i hbody
    injection h with h
    subst h
    have hpos : 0 < (r.takeWhile (fun c => ¬ isSpaceChar c)).length :=
      List.length_pos.mpr hbody
    have hle : (r.takeWhile (fun c => ¬ isSpaceChar c)).length ≤ r.length := by
      simpa using (List.takeWhile_prefix (fun c => ¬ isSpaceChar c) (l := r)).length_le
    simp only [List.length_drop]
    omega

theorem urlMatchAt_length_lt {cs rest : List Char} (h : urlMatchAt cs = some rest) :
    rest.length < cs.length := by
  unfold urlMatchAt at h
  split at h
  · split at h
    · have := urlBody_length_lt h
      simp only [List.length_cons]
      omega
    · have := urlBody_length_lt h
      simp only [List.length_cons]
      omega
    · simp at h
  · simp at h

/-- `re.sub(r'http[s]?://\S+', '', text)`. -/
def removeUrls (cs : List Char) : List Char :=
  match h : urlMatchAt cs with
  | some rest => removeUrls rest
  | none =>
      match cs with
      | [] => []
      | c :: cs' => c :: removeUrls cs'
termination_by cs.length
decreasing_by
  · exact urlMatchAt_length_lt h
  · simp

/-- Try to match `@\w+` at the head of the input. -/
def mentionMatchAt (cs : List Char) : Option (List Char) :=
  match cs with
  | '@' :: rest =>
      if rest.takeWhile isWordChar = [] then none
      else some (rest.drop (rest.takeWhile isWordChar).length)
  | _ => none

theorem mentionMatchAt_length_lt {cs rest : List Char}
    (h : mentionMatchAt cs = some rest) : rest.length < cs.length := by
  unfold mentionMatchAt at h
  split at h
  · rename_i tail
    split at h
    · simp at h
    · rename_i hw
      injection h with h
      subst h
      have hpos : 0 < (tail.takeWhile isWordChar).length := List.length_pos.mpr hw
      simp only [List.length_drop, List.length_cons]
      omega
  · simp at h

/-- `re.sub(r'@\w+', '', text)`. -/
def removeMentions (cs : List Char) : List Char :=
  match h : mentionMatchAt cs with
  | some rest => removeMentions rest
  | none =>
      match cs with
      | [] => []
      | c :: cs' => c :: removeMentions cs'
termination_by cs.length
decreasing_by
  · exact mentionMatchAt_length_lt h
  · simp

/-- `re.sub(r'#(\w+)', r'\1', text)`: drop the `#` of each hashtag,
keep the word. -/
def unHashtag (cs : List Char) : List Char :=
  match cs with
  | [] => []
  | '#' :: rest =>
      let w := rest.takeWhile isWordChar
      if hw : w = [] then '#' :: unHashtag rest
      else w ++ unHashtag (rest.drop w.length)
  | c :: cs' => c :: unHashtag cs'
termination_by cs.length
decreasing_by
  · simp
  · have hle : (rest.takeWhile isWordChar).length ≤ rest.length := by
      simpa using (List.takeWhile_prefix isWordChar (l := rest)).length_le
    have hpos : 0 < (rest.takeWhile isWordChar).length := List.length_pos.mpr hw
    simp only [List.length_drop, List.length_cons]
    omega
  · simp

/-- `re.sub(r'\s+', ' ', text)`. -/
def collapseWs (cs : List Char) : List Char :=
  match cs with
  | [] => []
  | c :: tail =>
      if isSpaceChar c then ' ' :: collapseWs (tail.dropWhile isSpaceChar)
      else c :: collapseWs tail
termination_by cs.length
decreasing_by
  · exact Nat.lt_of_le_of_lt
      (by simpa using (List.dropWhile_suffix (p := isSpaceChar)).length_le)
      (by simp)
  · simp

/-- Is `needle` a contiguous substring of `hay` (Python `in` on str)? -/
def containsSub (needle hay : List Char) : Bool :=
  (List.range (hay.length + 1)).any (fun i => needle.isPrefixOf (hay.drop i))

def keywordList : List String := ["tech", "food", "travel", "music", "sport", "news"]

def positiveWords : List String := ["good", "great", "awesome", "love", "happy", "excellent"]

def negativeWords : List String := ["bad", "terrible", "hate", "awful", "sad", "disappointing"]

/-- The NLP result dict of `process_text_simple`. -/
structure TextResult where
  cleaned_text : String
  language : String
  entities : List String
  sentiment : String
  sentiment_confidence : ℚ
  deriving DecidableEq, Repr

/-- `process_text_simple(text)`: strip URLs, mentions and hashtag
marks, collapse whitespace; fixed language `"en"`; keyword entities;
keyword-count sentiment with confidence 0.7 / 0.5. -/
def process_text_simple (text : String) : TextResult :=
  let cleaned_text :=
    (stripChars (collapseWs (unHashtag (removeMentions (removeUrls text.data))))).asString
  let textLower := (pyLower text).data
  let entities := keywordList.filter (fun k => containsSub (pyLower k).data textLower)
  let positiveCount := positiveWords.countP (fun w => containsSub w.data textLower)
  let negativeCount := negativeWords.countP (fun w => containsSub w.data textLower)
  if positiveCount > negativeCount then
    ⟨cleaned_text, "en", entities, "positive", 7 / 10⟩
  else if negativeCount > positiveCount then
    ⟨cleaned_text, "en", entities, "negative", 7 / 10⟩
  else
    ⟨cleaned_text, "en", entities, "neutral", 1 / 2⟩

/-! ### `process_upload_task` -/

/-- A media item after the worker's media pass: the `image`-typed
items gain `tags=["image"]`, `caption="Image content"`,
`similarity_score=0.5`. -/
structure ProcMediaItem where
  item : MediaItem
  imageEnriched : Bool
  deriving DecidableEq, Repr

/-- The post dict after `post.update(...)` with the NLP fields and the
media pass. -/
structure EnrichedPost where
  base : NormalizedPost
  cleaned_text : String
  language : String
  entities : List String
  sentiment : String
  sentiment_confidence : ℚ
  media : List ProcMediaItem
  deriving DecidableEq, Repr

/-- The per-post body of `process_upload_task` up to (but excluding)
the database write: NLP enrichment plus the media pass.  Every
operation in it is non-raising. -/
def enrichPost (p : NormalizedPost) : EnrichedPost :=
  let t := process_text_simple p.raw_text
  { base := p
    cleaned_text := t.cleaned_text
    language := t.language
    entities := t.entities
    sentiment := t.sentiment
    sentiment_confidence := t.sentiment_confidence
    media := p.media.map (fun m => ⟨m, m.type = Val.vStr "image"⟩) }

structure TaskResult where
  status : String
  processed_count : Nat
  deriving DecidableEq, Repr

/-- `process_upload_task(file_id, posts)`: `updateOutcome` models the
`db[POSTS_COLLECTION].update_one` call (the per-post raise point); a
raising post is logged and skipped by the inner `except`, contributing
neither to the success counter nor a database write.  Returns the task
result and the list of persisted updates. -/
def uploadStep (updateOutcome : EnrichedPost → Except PyErr Unit)
    (acc : Nat × List EnrichedPost) (p : NormalizedPost) : Nat × List EnrichedPost :=
  let e := enrichPost p
  match updateOutcome e with
  | .ok _ => (acc.1 + 1, acc.2 ++ [e])
  | .error _ => acc

def process_upload_task (updateOutcome : EnrichedPost → Except PyErr Unit)
    (posts : List NormalizedPost) : TaskResult × List EnrichedPost :=
  let fin := posts.foldl (uploadStep updateOutcome) (0, [])
  (⟨"completed", fin.1⟩, fin.2)

/-! ## Helper lemmas -/

/-- Successful-outcome test for an `Except`. -/
def isOkB {α : Type} : Except PyErr α → Bool
  | .ok _ => true
  | .error _ => false

/-- `strptime` on a string input only ever fails with `ValueError`. -/
theorem strptime_err_valueError (fmt : List FTok) (s : String) :
    (∃ d, strptime fmt s = .ok d) ∨ (∃ m, strptime fmt s = .error (.valueError m)) := by
  unfold strptime
  rcases matchToks fmt s.data {} with _ | tp
  · exact Or.inr ⟨_, rfl⟩
  · dsimp only
    split
    · exact Or.inr ⟨_, rfl⟩
    · split
      · exact Or.inr ⟨_, rfl⟩
      · split
        · exact Or.inr ⟨_, rfl⟩
        · exact Or.inl ⟨_, rfl⟩

/-- The catch-`ValueError` loop equals a first-success scan of the
format list. -/
theorem tryFormats_eq_findSome (now : DateTime) (s : String) (fmts : List (List FTok)) :
    tryFormats now s fmts =
      .ok ((fmts.findSome? (fun fmt => (strptime fmt s).toOption)).getD now) := by
  induction fmts with
  | nil => rfl
  | cons f fs ih =>
      rcases strptime_err_valueError f s with ⟨d, hd⟩ | ⟨m, hm⟩
      · simp [tryFormats, hd, List.findSome?_cons, Except.toOption]
      · simp [tryFormats, hm, List.findSome?_cons, Except.toOption, ih]

/-- `dropWhile` keeps something when the list holds an element
failing the predicate. -/
theorem dropWhile_ne_nil_of_mem {p : Char → Bool} {l : List Char} {x : Char}
    (hx : x ∈ l) (hpx : p x = false) : l.dropWhile p ≠ [] := by
  induction l with
  | nil => simp at hx
  | cons a l ih =>
      rw [List.dropWhile_cons]
      split
      · rename_i hpa
        rcases List.mem_cons.mp hx with rfl | hx'
        · rw [hpa] at hpx; simp at hpx
        · exact ih hx'
      · simp

/-- A string holding a non-whitespace character does not strip to
empty. -/
theorem pyStripStr_ne_empty {s : String} {x : Char} (hx : x ∈ s.data)
    (hpx : isSpaceChar x = false) : pyStripStr s ≠ "" := by
  intro h
  have hd : stripChars s.data = [] := by
    have := congrArg String.data h
    simpa [pyStripStr, List.asString] using this
  unfold stripChars at hd
  have h1 : (s.data.dropWhile isSpaceChar) ≠ [] := dropWhile_ne_nil_of_mem hx hpx
  have hx2 : x ∈ s.data.dropWhile isSpaceChar := by
    by_contra hx2
    have : x ∈ s.data.takeWhile isSpaceChar := by
      have := List.takeWhile_append_dropWhile (p := isSpaceChar) (l := s.data)
      rw [← this] at hx
      rcases List.mem_append.mp hx with h' | h'
      · exact h'
      · exact absurd h' hx2
    have := List.mem_takeWhile_imp this
    rw [hpx] at this
    simp at this
  have hx3 : x ∈ (s.data.dropWhile isSpaceChar).reverse := List.mem_reverse.mpr hx2
  have h2 : (s.data.dropWhile isSpaceChar).reverse.dropWhile isSpaceChar ≠ [] :=
    dropWhile_ne_nil_of_mem hx3 hpx
  rw [List.reverse_eq_nil_iff] at hd
  exact h2 hd

/-- Timestamp-chain values for which `parse_timestamp` cannot raise:
falsy values (returned as `now`) and strings (`strptime` failures are
all caught `ValueError`s).  A truthy non-string raises `TypeError`
through `normalize_post_data`'s catch-all. -/
def tsSafe (v : Val) : Prop := truthy v = false ∨ ∃ s, v = Val.vStr s

theorem parse_timestamp_ok_of_tsSafe (now : DateTime) {v : Val} (h : tsSafe v) :
    ∃ t, parse_timestamp now v = .ok t := by
  rcases h with hf | ⟨s, rfl⟩
  · exact ⟨now, by simp [parse_timestamp, hf]⟩
  · by_cases hs : s = ""
    · subst hs; exact ⟨now, rfl⟩
    · have ht : truthy (Val.vStr s) = true := by simp [truthy, hs]
      have hstep : parse_timestamp now (.vStr s) = tryFormats now s strptimeFormats := by
        unfold parse_timestamp
        rw [ht]
        simp only [Bool.true_eq_false, if_false]
      rw [hstep, tryFormats_eq_findSome]
      exact ⟨_, rfl⟩

/-- Inversion: an accepted post carries exactly the field values of
the `normalized` dict. -/
theorem normalizeExc_ok_some {now : DateTime} {g : String} {post : RawRecord}
    {p : NormalizedPost} (h : normalizeExc now g post = .ok (some p)) :
    ∃ s t, p = ⟨pyGetD post "platform" (.vStr "unknown"), pyStr (idChain g post), s, t,
      pyStr (userChain post), parse_media (mediaChain post), metadataOf post⟩ := by
  unfold normalizeExc at h
  rcases hrt : rawTextStep post with e | rt <;> rw [hrt] at h
  · simp [bind, Except.bind] at h
  · simp only [bind, Except.bind] at h
    rcases hts : parse_timestamp now (tsChain post) with e2 | t <;> rw [hts] at h <;>
      simp only [Except.bind] at h
    · simp at h
    · unfold finishPost at h
      cases rt with
      | vStr s =>
          dsimp only at h
          by_cases hb : pyStripStr s = ""
          · rw [if_pos hb] at h
            simp [pure, Except.pure] at h
          · rw [if_neg hb] at h
            simp only [pure, Except.pure, Except.ok.injEq, Option.some.injEq] at h
            exact ⟨s, t, h.symm⟩
      | vNone => simp at h
      | vBool b => simp at h
      | vInt n => simp at h
      | vList xs => simp at h
      | vDict kvs => simp at h

/-! ## Claims -/

/-- C3: `parse_timestamp` is total on strings: for every string input
it returns a datetime without raising; the empty string and any string
matching none of the four formats yield `now`, and otherwise the first
format of the ordered list that parses wins. -/
theorem parse_timestamp_total_on_strings (now : DateTime) (s : String) :
    parse_timestamp now (.vStr s) =
      .ok ((strptimeFormats.findSome? (fun fmt => (strptime fmt s).toOption)).getD now) := by
  by_cases hs : s = ""
  · subst hs
    rfl
  · have ht : truthy (Val.vStr s) = true := by simp [truthy, hs]
    unfold parse_timestamp
    rw [ht]
    simp only [Bool.true_eq_false, if_false]
    exact tryFormats_eq_findSome now s strptimeFormats

/-- C10: for every accepted record the metadata of the normalized
post is the input mapping restricted to keys outside the fixed
consumed-key set; in particular `title`, `description` and `caption`
stay in the metadata even when consumed for text synthesis. -/
theorem normalize_metadata_restriction (now : DateTime) (g : String) (post : RawRecord)
    (p : NormalizedPost) (h : normalize_post_data now g post = some p) :
    p.metadata = post.filter (fun kv =>
      match kv.1 with
      | .kStr s => ¬ s ∈ consumedKeys
      | .kNone => true) ∧
    (∀ k v, (PyKey.kStr k, v) ∈ post → ¬ k ∈ consumedKeys → (PyKey.kStr k, v) ∈ p.metadata) ∧
    ¬ "title" ∈ consumedKeys ∧ ¬ "description" ∈ consumedKeys ∧ ¬ "caption" ∈ consumedKeys := by
  have hm : p.metadata = metadataOf post := by
    unfold normalize_post_data at h
    rcases hx : normalizeExc now g post with e | r <;> rw [hx] at h
    · simp at h
    · dsimp only at h
      rw [h] at hx
      obtain ⟨s, t, hp⟩ := normalizeExc_ok_some hx
      rw [hp]
  refine ⟨by rw [hm]; rfl, ?_, by decide, by decide, by decide⟩
  intro k v hmem hnotin
  rw [hm]
  unfold metadataOf
  exact List.mem_filter.mpr ⟨hmem, by simpa using hnotin⟩

/-- C10 witness: a concrete record whose `text` is consumed while its
`title` remains in the metadata. -/
theorem normalize_metadata_restriction_witness :
    (⟨Val.vStr "unknown", "g", "hi", ⟨1970, 1, 1, 0, 0, 0, 0⟩, "", [],
        [(PyKey.kStr "title", Val.vStr "T")]⟩ : NormalizedPost).metadata =
      ([(PyKey.kStr "text", Val.vStr "hi"), (PyKey.kStr "title", Val.vStr "T")] :
          RawRecord).filter (fun kv =>
        match kv.1 with
        | .kStr s => ¬ s ∈ consumedKeys
        | .kNone => true) ∧
    (∀ k v, (PyKey.kStr k, v) ∈
        ([(PyKey.kStr "text", Val.vStr "hi"), (PyKey.kStr "title", Val.vStr "T")] :
          RawRecord) → ¬ k ∈ consumedKeys →
        (PyKey.kStr k, v) ∈
          (⟨Val.vStr "unknown", "g", "hi", ⟨1970, 1, 1, 0, 0, 0, 0⟩, "", [],
            [(PyKey.kStr "title", Val.vStr "T")]⟩ : NormalizedPost).metadata) ∧
    ¬ "title" ∈ consumedKeys ∧ ¬ "description" ∈ consumedKeys ∧ ¬ "caption" ∈ consumedKeys :=
  normalize_metadata_restriction ⟨1970, 1, 1, 0, 0, 0, 0⟩ "g"
    [(PyKey.kStr "text", Val.vStr "hi"), (PyKey.kStr "title", Val.vStr "T")] _ (by rfl)

/-- C1 counterexample: the record with every text-candidate field
absent and no title/description/caption is *accepted* (with the
platform fallback text), not rejected as the claim states. -/
theorem normalize_empty_record_not_rejected :
    normalize_post_data ⟨1970, 1, 1, 0, 0, 0, 0⟩ "gen-id" [] =
      some ⟨Val.vStr "unknown", "gen-id", "Post from unknown platform",
        ⟨1970, 1, 1, 0, 0, 0, 0⟩, "", [], []⟩ ∧
    normalize_post_data ⟨1970, 1, 1, 0, 0, 0, 0⟩ "gen-id" [] ≠ none := by
  exact ⟨rfl, by decide⟩

/-- C1 amended: a record whose text candidates are all absent or
falsy and whose title/description/caption are absent is *not*
rejected (provided the timestamp chain resolves to an absent, falsy or
string value, which otherwise raises `TypeError` and drops the
record): `normalize_post_data` accepts it with the synthesized text
`"Post from {platform} platform"`. -/
theorem normalize_no_text_or_summary_fields_is_accepted
    (now : DateTime) (g : String) (post : RawRecord)
    (hraw : truthy (pyGetD post "raw_text" .vNone) = false)
    (htext : truthy (pyGetD post "text" .vNone) = false)
    (hcontent : truthy (pyGetD post "content" .vNone) = false)
    (hmessage : truthy (pyGetD post "message" .vNone) = false)
    (htitle : pyGet post "title" = none)
    (hdescr : pyGet post "description" = none)
    (hcaption : pyGet post "caption" = none)
    (hts : tsSafe (tsChain post)) :
    ∃ p, normalize_post_data now g post = some p ∧ p.raw_text = synthText post := by
  have hrt : rawTextChain post = .vStr "" := by
    unfold rawTextChain
    rw [orVal, orVal, orVal, orVal]
    simp [hraw, htext, hcontent, hmessage]
  have hsum : summaryParts post = [] := by
    unfold summaryParts
    simp [pyGetD, htitle, hdescr, hcaption, truthy]
  have hstep : rawTextStep post = pure (Val.vStr (synthText post)) := by
    unfold rawTextStep
    rw [hrt, hsum]
    simp [truthy]
  obtain ⟨t, ht⟩ := parse_timestamp_ok_of_tsSafe now hts
  have hP : ('P' : Char) ∈ (synthText post).data := by
    unfold synthText
    rw [String.data_append, String.data_append]
    exact List.mem_append_left _ (List.mem_append_left _ (by decide))
  have hsynth : pyStripStr (synthText post) ≠ "" :=
    pyStripStr_ne_empty hP (by decide)
  refine ⟨⟨pyGetD post "platform" (.vStr "unknown"), pyStr (idChain g post), synthText post, t,
    pyStr (userChain post), parse_media (mediaChain post), metadataOf post⟩, ?_, rfl⟩
  unfold normalize_post_data normalizeExc
  rw [hstep, ht]
  simp only [bind, Except.bind, pure, Except.pure]
  unfold finishPost
  dsimp only
  rw [if_neg hsynth]
  rfl

/-- C1 amended witness: the empty record. -/
theorem normalize_no_text_or_summary_fields_is_accepted_witness :
    ∃ p, normalize_post_data ⟨1970, 1, 1, 0, 0, 0, 0⟩ "gid" [] = some p ∧
      p.raw_text = synthText [] :=
  normalize_no_text_or_summary_fields_is_accepted ⟨1970, 1, 1, 0, 0, 0, 0⟩ "gid" []
    rfl rfl rfl rfl rfl rfl rfl (Or.inl rfl)

/-- C2 counterexample: `{"raw_text": " "}` holds a non-empty string
text candidate, yet the record is rejected by the strip check. -/
theorem normalize_blank_raw_text_rejected :
    normalize_post_data ⟨1970, 1, 1, 0, 0, 0, 0⟩ "gid"
        [(PyKey.kStr "raw_text", Val.vStr " ")] = none ∧
    (" " : String) ≠ "" := by
  exact ⟨rfl, by decide⟩

/-- C2 amended: if the first truthy value of the text-candidate chain
is a string that does not strip to empty, and the timestamp chain
resolves to an absent, falsy or string value, `normalize_post_data`
never rejects: it returns a post carrying that string as `raw_text`. -/
theorem normalize_nonblank_text_candidate_accepted
    (now : DateTime) (g : String) (post : RawRecord) (s : String)
    (hs : rawTextChain post = .vStr s)
    (hnb : pyStripStr s ≠ "")
    (hts : tsSafe (tsChain post)) :
    ∃ p, normalize_post_data now g post = some p ∧ p.raw_text = s := by
  have hse : s ≠ "" := by
    intro hx
    exact hnb (by rw [hx]; rfl)
  have hstep : rawTextStep post = pure (Val.vStr s) := by
    unfold rawTextStep
    rw [hs]
    simp [truthy, hse]
  obtain ⟨t, ht⟩ := parse_timestamp_ok_of_tsSafe now hts
  refine ⟨⟨pyGetD post "platform" (.vStr "unknown"), pyStr (idChain g post), s, t,
    pyStr (userChain post), parse_media (mediaChain post), metadataOf post⟩, ?_, rfl⟩
  unfold normalize_post_data normalizeExc
  rw [hstep, ht]
  simp only [bind, Except.bind, pure, Except.pure]
  unfold finishPost
  dsimp only
  rw [if_neg hnb]
  rfl

/-- C2 amended witness: `{"raw_text": "hi"}`. -/
theorem normalize_nonblank_text_candidate_accepted_witness :
    ∃ p, normalize_post_data ⟨1970, 1, 1, 0, 0, 0, 0⟩ "gid"
        [(PyKey.kStr "raw_text", Val.vStr "hi")] = some p ∧ p.raw_text = "hi" :=
  normalize_nonblank_text_candidate_accepted ⟨1970, 1, 1, 0, 0, 0, 0⟩ "gid"
    [(PyKey.kStr "raw_text", Val.vStr "hi")] "hi" rfl (by decide) (Or.inl rfl)

/-- C5: enrichment text processing is deterministic and idempotent:
two runs of `process_text_simple` on the same `raw_text` agree on
`cleaned_text`, `language`, `entities`, `sentiment` and
`sentiment_confidence`. -/
theorem process_text_simple_two_runs_equal (raw_text : String) :
    (process_text_simple raw_text).cleaned_text = (process_text_simple raw_text).cleaned_text ∧
    (process_text_simple raw_text).language = (process_text_simple raw_text).language ∧
    (process_text_simple raw_text).entities = (process_text_simple raw_text).entities ∧
    (process_text_simple raw_text).sentiment = (process_text_simple raw_text).sentiment ∧
    (process_text_simple raw_text).sentiment_confidence =
      (process_text_simple raw_text).sentiment_confidence :=
  ⟨rfl, rfl, rfl, rfl, rfl⟩

/-- C4: `parse_media` is total over list-of-dict, list-of-string,
bare-string and absent inputs and never throws; dict entries map to
type/url/filename with their defaults, bare string entries become
one-element image items, any other input yields `[]`.  Corrected at
the empty bare string: `""` is falsy, so it yields `[]` rather than a
one-element list. -/
theorem parse_media_total_over_shapes (xs : List Val) (s : String) (n : Int) (b : Bool)
    (kvs : List (PyKey × Val)) (r : List (PyKey × Val)) :
    parse_media (.vList xs) = xs.filterMap mediaOfItem ∧
    mediaOfItem (.vDict r) =
      some ⟨pyGetD r "type" (.vStr "image"),
            pyGetD r "url" (pyGetD r "src" (.vStr "")),
            pyGetD r "filename" (.vStr "")⟩ ∧
    parse_media (.vStr s) =
      (if s = "" then [] else [⟨.vStr "image", .vStr s, .vStr ""⟩]) ∧
    parse_media .vNone = [] ∧
    parse_media (.vBool b) = [] ∧
    parse_media (.vInt n) = [] ∧
    parse_media (.vDict kvs) = [] := by
  refine ⟨?_, rfl, ?_, rfl, ?_, ?_, ?_⟩
  · cases xs <;> simp [parse_media, truthy]
  · by_cases hs : s = "" <;> simp [parse_media, truthy, hs]
  · cases b <;> rfl
  · unfold parse_media truthy
    by_cases hn : n = 0 <;> simp [hn]
  · cases kvs <;> simp [parse_media, truthy]

/-- C4 (witness side of the correction): at the empty bare string the
source returns `[]`, not the one-element image list the claim
predicts. -/
theorem parse_media_empty_bare_string :
    parse_media (.vStr "") = [] ∧
    parse_media (.vStr "") ≠ [⟨.vStr "image", .vStr "", .vStr ""⟩] := by
  exact ⟨rfl, by decide⟩

/-- Accumulator-generalized unfolding of the worker's fold. -/
theorem uploadStep_foldl (upd : EnrichedPost → Except PyErr Unit)
    (posts : List NormalizedPost) (n : Nat) (ws : List EnrichedPost) :
    posts.foldl (uploadStep upd) (n, ws) =
      (n + (posts.filter (fun p => isOkB (upd (enrichPost p)))).length,
       ws ++ (posts.filter (fun p => isOkB (upd (enrichPost p)))).map enrichPost) := by
  induction posts generalizing n ws with
  | nil => simp
  | cons p ps ih =>
      rcases hu : upd (enrichPost p) with e | u
      · have hstep : uploadStep upd (n, ws) p = (n, ws) := by
          simp [uploadStep, hu]
        have hiso : isOkB (upd (enrichPost p)) = false := by simp [isOkB, hu]
        rw [List.foldl_cons, hstep, ih, List.filter_cons, hiso]
        simp
      · have hstep : uploadStep upd (n, ws) p = (n + 1, ws ++ [enrichPost p]) := by
          simp [uploadStep, hu]
        have hiso : isOkB (upd (enrichPost p)) = true := by simp [isOkB, hu]
        rw [List.foldl_cons, hstep, ih, List.filter_cons, hiso]
        simp
        all_goals omega

/-- C6: `upload_file` answers HTTP 400 before performing any side
effect when the lower-cased extension is not `.json`/`.csv`/`.zip`
(the empty filename included), and for an accepted, parseable file it
answers with the generated file id, `total_posts` equal to the number
of accepted normalized posts, and `processing_status` exactly
`"processing"`. -/
theorem upload_file_validation_and_response (filename : String)
    (parsed : Except PyErr (List NormalizedPost)) (fid : String)
    (posts : List NormalizedPost) :
    (¬ (pyLower (splitextExt filename) = ".json" ∨ pyLower (splitextExt filename) = ".csv" ∨
        pyLower (splitextExt filename) = ".zip") →
      (upload_file filename parsed fid).2 = [] ∧
      ∃ d, (upload_file filename parsed fid).1 = .httpError 400 d) ∧
    ((pyLower (splitextExt filename) = ".json" ∨ pyLower (splitextExt filename) = ".csv" ∨
        pyLower (splitextExt filename) = ".zip") → parsed = .ok posts →
      (upload_file filename parsed fid).1 =
        .success ⟨"File uploaded successfully", fid, posts.length, "processing"⟩) := by
  constructor
  · intro hbad
    unfold upload_file
    by_cases hfn : filename = ""
    · rw [if_pos hfn]
      exact ⟨rfl, _, rfl⟩
    · rw [if_neg hfn, if_pos hbad]
      exact ⟨rfl, _, rfl⟩
  · intro hgood hok
    have hfn : filename ≠ "" := by
      intro hx
      subst hx
      rcases hgood with h | h | h <;> revert h <;> decide
    unfold upload_file
    rw [if_neg hfn, if_neg (not_not_intro hgood), hok]

/-- C6 witness: a rejected `.exe` upload and an accepted `.JSON`
upload. -/
theorem upload_file_validation_and_response_witness :
    ((upload_file "data.exe" (.ok []) "fid").2 = [] ∧
      ∃ d, (upload_file "data.exe" (.ok []) "fid").1 = .httpError 400 d) ∧
    (upload_file "data.JSON" (.ok []) "fid").1 =
      .success ⟨"File uploaded successfully", "fid", 0, "processing"⟩ :=
  ⟨(upload_file_validation_and_response "data.exe" (.ok []) "fid" []).1 (by decide),
   (upload_file_validation_and_response "data.JSON" (.ok []) "fid" []).2 (by decide) rfl⟩

/-- Does the root check of `parse_json_file` pass? -/
def rootAccepts : Val → Bool
  | .vList _ => true
  | .vDict r => hasKey r "posts"
  | _ => false

/-- A record entry the debug print cannot crash on: a dict whose
`raw_text`, if present, is a string or a list (sliceable). -/
def jsonRecOk : Val → Bool
  | .vDict r =>
      (match pyGetD r "raw_text" (.vStr "no_text") with
       | .vStr _ => true
       | .vList _ => true
       | _ => false)
  | _ => false

def getDict : Val → RawRecord
  | .vDict r => r
  | _ => []

theorem normLoop_all_ok (now : DateTime) (gen : Nat → String) :
    ∀ (ps : List Val) (i : Nat), ps.all jsonRecOk = true →
      normLoop now gen i ps =
        .ok ((ps.enumFrom i).filterMap
          (fun ip => normalize_post_data now (gen ip.1) (getDict ip.2))) := by
  intro ps
  induction ps with
  | nil => intro i _; rfl
  | cons p ps ih =>
      intro i hall
      rw [List.all_cons, Bool.and_eq_true] at hall
      obtain ⟨hp, hps⟩ := hall
      have hpp : processPost now (gen i) p = .ok (normalize_post_data now (gen i) (getDict p)) := by
        cases p with
        | vDict r =>
            unfold processPost getDict
            dsimp only
            rcases hg : pyGetD r "raw_text" (.vStr "no_text") with _ | b | n | s | xs | kvs <;>
              first
              | rfl
              | (unfold jsonRecOk at hp; dsimp only at hp; rw [hg] at hp; simp at hp)
        | vNone => unfold jsonRecOk at hp; simp at hp
        | vBool b => unfold jsonRecOk at hp; simp at hp
        | vInt n => unfold jsonRecOk at hp; simp at hp
        | vStr s => unfold jsonRecOk at hp; simp at hp
        | vList xs => unfold jsonRecOk at hp; simp at hp
      unfold normLoop
      rw [hpp]
      simp only [bind, Except.bind]
      rw [ih (i + 1) hps]
      rw [List.enumFrom_cons, List.filterMap_cons]
      cases normalize_post_data now (gen i) (getDict p) <;> rfl

/-- C7: `parse_json_file` raises `ValueError("Invalid JSON
structure")` for every root that is neither a list nor a dict with a
`posts` key, producing no records; a list root — and a dict root whose
`posts` holds a list — of well-formed records yields the accepted
normalized posts.  Corrected: when the `posts` key holds a
non-iterable value, or an entry is not a dict (or carries a
non-sliceable `raw_text`), the debug-print/iteration raises and the
whole file fails even though the root shape was accepted. -/
theorem parse_json_file_root_dichotomy (now : DateTime) (gen : Nat → String) (data : Val)
    (entries : List Val) (r0 : List (PyKey × Val)) :
    (rootAccepts data = false →
      parse_json_file now gen data = .error (.valueError "Invalid JSON structure")) ∧
    (entries.all jsonRecOk = true →
      parse_json_file now gen (.vList entries) =
        .ok (entries.enum.filterMap
          (fun ip => normalize_post_data now (gen ip.1) (getDict ip.2)))) ∧
    (entries.all jsonRecOk = true → pyGet r0 "posts" = some (.vList entries) →
      parse_json_file now gen (.vDict r0) =
        .ok (entries.enum.filterMap
          (fun ip => normalize_post_data now (gen ip.1) (getDict ip.2)))) := by
  refine ⟨?_, ?_, ?_⟩
  · intro hbad
    unfold parse_json_file
    cases data with
    | vDict r =>
        unfold rootAccepts at hbad
        dsimp only at hbad
        simp only [bind, Except.bind]
        rw [hbad]
        rfl
    | vList xs => unfold rootAccepts at hbad; simp at hbad
    | vNone => rfl
    | vBool b => rfl
    | vInt n => rfl
    | vStr s => rfl
  · intro hall
    unfold parse_json_file
    simp only [bind, Except.bind, pure, Except.pure]
    unfold pyIterate
    dsimp only
    rw [normLoop_all_ok now gen entries 0 hall]
    rfl
  · intro hall hposts
    have hk : hasKey r0 "posts" = true := by
      unfold hasKey
      rw [hposts]
      rfl
    unfold parse_json_file
    simp only [bind, Except.bind, pure, Except.pure]
    rw [hk]
    simp only [if_true, hposts, Option.getD_some]
    unfold pyIterate
    dsimp only
    rw [normLoop_all_ok now gen entries 0 hall]
    rfl

/-- C7 counterexample: a dict root whose `posts` key holds the
non-iterable `42` passes the root-shape check but the whole file
fails with `TypeError`, producing no records. -/
theorem parse_json_file_posts_key_non_iterable :
    parse_json_file ⟨1970, 1, 1, 0, 0, 0, 0⟩ (fun _ => "gid")
        (.vDict [(.kStr "posts", .vInt 42)]) =
      .error (.typeError "object is not iterable") := by rfl

/-- C7 witness: a bad root and a good two-record list root. -/
theorem parse_json_file_root_dichotomy_witness :
    parse_json_file ⟨1970, 1, 1, 0, 0, 0, 0⟩ (fun _ => "gid") (.vInt 7) =
      .error (.valueError "Invalid JSON structure") ∧
    parse_json_file ⟨1970, 1, 1, 0, 0, 0, 0⟩ (fun _ => "gid")
        (.vList [.vDict [(.kStr "text", .vStr "hi")], .vDict [(.kStr "raw_text", .vStr " ")]]) =
      .ok (([Val.vDict [(.kStr "text", .vStr "hi")],
             Val.vDict [(.kStr "raw_text", .vStr " ")]].enum).filterMap
        (fun ip => normalize_post_data ⟨1970, 1, 1, 0, 0, 0, 0⟩
          ((fun _ => "gid") ip.1) (getDict ip.2))) :=
  ⟨(parse_json_file_root_dichotomy ⟨1970, 1, 1, 0, 0, 0, 0⟩ (fun _ => "gid") (.vInt 7) [] []).1
      rfl,
   (parse_json_file_root_dichotomy ⟨1970, 1, 1, 0, 0, 0, 0⟩ (fun _ => "gid") (.vInt 7)
      [.vDict [(.kStr "text", .vStr "hi")], .vDict [(.kStr "raw_text", .vStr " ")]] []).2.1
      (by decide)⟩

/-- C9: in `process_upload_task` a per-post exception (modelled at the
`update_one` raise point) is caught and the loop continues; a failing
post contributes no persisted update; the task returns status
`"completed"` with `processed_count` equal to the number of posts
whose enrichment and persistence succeeded. -/
theorem process_upload_task_per_post_isolation
    (upd : EnrichedPost → Except PyErr Unit) (posts : List NormalizedPost) :
    (process_upload_task upd posts).1.status = "completed" ∧
    (process_upload_task upd posts).1.processed_count =
      (posts.filter (fun p => isOkB (upd (enrichPost p)))).length ∧
    (process_upload_task upd posts).2 =
      (posts.filter (fun p => isOkB (upd (enrichPost p)))).map enrichPost := by
  unfold process_upload_task
  rw [uploadStep_foldl]
  exact ⟨rfl, by simp, by simp⟩

end SociaLens
